import Mathlib

/-!
Verification of the SunSpec decoding core (`internal/meters/sunspec.go`).

Shallow embedding conventions:
* Go byte slices become `List Nat`; a well-formed byte is `< 256` and is
  assumed as a hypothesis where a claim needs it.
* Go `uint16` arithmetic is `Nat` arithmetic reduced `% 65536` at every
  operation, exactly where the Go expression has type `uint16`.
* Go `float64` values flowing through the splitters are modelled by the
  idealized type `FloatVal`: either `nan` (only produced by the sentinel
  decoder) or an exact rational value; `math.Pow10` becomes an exact
  rational power of 10.
* A Go run-time panic (slice index out of range) is modelled by `Option`:
  `none` is a panic, `some` a normal return.
-/

set_option maxRecDepth 8000

namespace meters

/-- Measurements are opaque identifiers supplied by the caller. -/
abbrev Meas := Nat

/-- Modelled from the spec: the external registry resolving a Measurement to
its model-relative 1-based register offset, `resolve(Measurement) -> uint16`.
An arbitrary function is reduced mod 2^16 to reflect the `uint16` return
type; the repository's `MeasurementMapping.Opcode` is not under `src/`. -/
def Opcode (opc : Meas → Nat) (m : Meas) : Nat := opc m % 65536

/-- Modelled from the spec: the Modbus "read holding registers" function
code carried in every operation descriptor (constant `ReadHoldingReg`,
defined outside `src/`). Its numeric value is irrelevant to the claims. -/
def ReadHoldingReg : Nat := 3

/-- Modelled from the spec: the distinguished pseudo-measurement marking a
block operation whose result is split (`Split`, defined outside `src/`). -/
def SplitMeas : Meas := 0

-- protocol constants from sunspec.go
def sunspecBase : Nat := 40000
def sunspecID : Nat := 1
def sunspecModelID : Nat := 3
def sunspecManufacturer : Nat := 5
def sunspecModel : Nat := 21
def sunspecVersion : Nat := 45
def sunspecSerial : Nat := 53
def sunsSignature : Nat := 0x53756e53

/-- Idealized float64: `nan` or an exact rational. -/
inductive FloatVal where
  | nan : FloatVal
  | val : ℚ → FloatVal
deriving DecidableEq

/-- `math.Pow10` idealized: the exact rational `10^e`. -/
def pow10 (e : ℤ) : ℚ :=
  if 0 ≤ e then (10 : ℚ) ^ e.toNat else ((10 : ℚ) ^ (-e).toNat)⁻¹

/-- `binary.BigEndian.Uint16(b[i:])`; `none` models the Go panic when
fewer than two bytes are available from index `i`. -/
def readUint16BE (b : List Nat) (i : Nat) : Option Nat :=
  match b[i]?, b[i+1]? with
  | some x, some y => some (x * 256 + y)
  | _, _ => none

/-- `binary.BigEndian.Uint32(b[i:])`; `none` models the Go panic. -/
def readUint32BE (b : List Nat) (i : Nat) : Option Nat :=
  match b[i]?, b[i+1]?, b[i+2]?, b[i+3]? with
  | some x, some y, some z, some w =>
      some (((x * 256 + y) * 256 + z) * 256 + w)
  | _, _, _, _ => none

/-- `int(int16(u))` for a `uint16` value `u`. -/
def toInt16 (u : Nat) : ℤ :=
  if u < 32768 then (u : ℤ) else (u : ℤ) - 65536

/-- `RTUUint16ToFloat64WithNaN`: big-endian uint16, with `0xffff` mapped
to NaN. `none` models the panic on a short slice. -/
def RTUUint16ToFloat64WithNaN (b : List Nat) : Option FloatVal :=
  match readUint16BE b 0 with
  | none => none
  | some u => if u = 0xffff then some .nan else some (.val u)

/-- `SunSpecDeviceDescriptor`; Go strings are byte lists here. -/
structure SunSpecDeviceDescriptor where
  manufacturer : List Nat
  model : List Nat
  version : List Nat
  serial : List Nat
deriving DecidableEq

/-- The Go zero value of `SunSpecDeviceDescriptor`. -/
def zeroDescriptor : SunSpecDeviceDescriptor := ⟨[], [], [], []⟩

inductive DecodeError where
  | bufferTooShort : DecodeError
  | invalidSignature : DecodeError
deriving DecidableEq

/-- Outcome of `DecodeSunSpecCommonBlock`: either a run-time panic
(slice out of range) or a normal `(descriptor, error)` return. -/
inductive DecodeOutcome where
  | panics : DecodeOutcome
  | returns : SunSpecDeviceDescriptor → Option DecodeError → DecodeOutcome
deriving DecidableEq

/-- Is the byte a member of the `strings.TrimRight` cutset `" \x00"`? -/
def isPadByte (c : Nat) : Bool := c == 32 || c == 0

/-- `strings.TrimRight(s, " \x00")`. -/
def trimRight (l : List Nat) : List Nat :=
  (l.reverse.dropWhile isPadByte).reverse

/-- `stringDecode(b, reg, len)`: slices `b[2*(reg-1) : 2*(reg+len-1)-1]`
and trims trailing spaces and NULs; `none` models the slice panic. -/
def stringDecode (b : List Nat) (reg slen : Nat) : Option (List Nat) :=
  let start := 2 * (reg - 1)
  let stop := 2 * (reg + slen - 1) - 1
  if start ≤ stop ∧ stop ≤ b.length then
    some (trimRight ((b.drop start).take (stop - start)))
  else none

/-- `DecodeSunSpecCommonBlock`. -/
def DecodeSunSpecCommonBlock (b : List Nat) : DecodeOutcome :=
  if b.length < sunspecSerial + 2 * 16 then
    .returns zeroDescriptor (some .bufferTooShort)
  else
    match readUint32BE b (sunspecID - 1) with
    | none => .panics
    | some u =>
      if u ≠ sunsSignature then
        .returns zeroDescriptor (some .invalidSignature)
      else
        match stringDecode b sunspecManufacturer 16,
              stringDecode b sunspecModel 16,
              stringDecode b sunspecVersion 8,
              stringDecode b sunspecSerial 16 with
        | some m, some mo, some v, some s => .returns ⟨m, mo, v, s⟩ none
        | _, _, _, _ => .panics

/-- One decoded reading emitted by a splitter. -/
structure SplitResult where
  opCode : Nat
  iec : Meas
  value : ℚ
deriving DecidableEq

/-- A splitter; `none` models a panic while splitting. -/
abbrev Splitter := List Nat → Option (List SplitResult)

/-- Modelled from the spec: the operation descriptor (`Operation`, defined
outside `src/`) — function code, absolute start address, register count,
bound measurement, and optional splitter. The fields assigned `uint16`
expressions in `sunspec.go` are `uint16`, hence values `< 65536` here. -/
structure Operation where
  funcCode : Nat
  opCode : Nat
  readLen : Nat
  iec : Meas
  splitter : Option Splitter

/-- `GetSunSpecCommonBlock`: the read operation for the common block. -/
def GetSunSpecCommonBlock : Operation :=
  { funcCode := ReadHoldingReg
    opCode := sunspecBase % 65536
    readLen := sunspecSerial % 65536
    iec := SplitMeas
    splitter := none }

/-- `minMax`: fold over the measurements starting from `(0xFFFF, 0)`. -/
def minMax (opc : Meas → Nat) (iecs : List Meas) : Nat × Nat :=
  iecs.foldl
    (fun mm i =>
      let op := Opcode opc i
      (if op < mm.1 then op else mm.1, if op > mm.2 then op else mm.2))
    (0xFFFF, 0)

/-- The byte index `dataSize*(opcode-min)` computed in `uint16`
arithmetic (`dataSize`, `opcode`, `min` are all `uint16` in Go). -/
def blockIndex (dataSize mn opcode : Nat) : Nat :=
  dataSize % 65536 * ((opcode % 65536 + 65536 - mn % 65536) % 65536) % 65536

/-- The loop body of the splitter returned by `mkBlockSplitter`:
decode each measurement at its block-relative index, skip NaN readings,
emit the rest in order. `none` models a panic inside the loop. -/
def splitLoop (opc : Meas → Nat) (dataSize : Nat)
    (valFunc : List Nat → Option FloatVal) (mn : Nat) (scaler : ℚ)
    (b : List Nat) : List Meas → Option (List SplitResult)
  | [] => some []
  | iec :: rest =>
    let opcode := Opcode opc iec
    match valFunc (b.drop (blockIndex dataSize mn opcode)) with
    | none => none
    | some .nan => splitLoop opc dataSize valFunc mn scaler b rest
    | some (.val q) =>
      match splitLoop opc dataSize valFunc mn scaler b rest with
      | none => none
      | some res =>
        some ({ opCode := (sunspecBase + opcode - 1) % 65536
                iec := iec
                value := scaler * q } :: res)

/-- `mkBlockSplitter`: reads the signed 16-bit exponent from the last two
bytes of the block, then splits the block into per-measurement readings. -/
def mkBlockSplitter (opc : Meas → Nat) (dataSize : Nat)
    (valFunc : List Nat → Option FloatVal) (iecs : List Meas) : Splitter :=
  let mn := (minMax opc iecs).1
  fun b =>
    match readUint16BE b (b.length - 2) with
    | none => none
    | some e =>
      splitLoop opc dataSize valFunc mn (pow10 (toInt16 e)) b iecs

/-- `mkSplitUint16`: 16-bit unsigned block splitter with NaN sentinel. -/
def mkSplitUint16 (opc : Meas → Nat) (iecs : List Meas) : Splitter :=
  mkBlockSplitter opc 2 RTUUint16ToFloat64WithNaN iecs

/-- `scaleSnip16`: block read operation covering the measurements plus a
trailing scale-factor register, with an attached splitter. -/
def scaleSnip16 (opc : Meas → Nat) (splitter : List Meas → Splitter)
    (iecs : List Meas) : Operation :=
  let mm := minMax opc iecs
  { funcCode := ReadHoldingReg
    opCode := (sunspecBase + mm.1 - 1) % 65536
    readLen := ((mm.2 + 65536 - mm.1) % 65536 + 2) % 65536
    iec := SplitMeas
    splitter := some (splitter iecs) }

/-- `scaleSnip32`: as `scaleSnip16`, with `ReadLen = (ReadLen-1)*2 + 1`
recomputed in `uint16` arithmetic. -/
def scaleSnip32 (opc : Meas → Nat) (splitter : List Meas → Splitter)
    (iecs : List Meas) : Operation :=
  let op := scaleSnip16 opc splitter iecs
  { op with readLen := ((op.readLen + 65536 - 1) % 65536 * 2 + 1) % 65536 }

/-! ## Concrete buffers used as failing inputs -/

/-- A buffer of exactly the decoder's minimum accepted length
`sunspecSerial + 2*16 = 85`, starting with the SunS signature. -/
def minLenBuffer : List Nat := [0x53, 0x75, 0x6e, 0x53] ++ List.replicate 81 0

/-- A buffer of exactly the `2 * 53 = 106` bytes produced by executing
`GetSunSpecCommonBlock`, starting with the SunS signature. -/
def companionBuffer : List Nat := [0x53, 0x75, 0x6e, 0x53] ++ List.replicate 102 0

/-- A 120-byte buffer with a valid signature: long enough for the length
check, too short for the serial-field slice. -/
def midLenBuffer : List Nat := [0x53, 0x75, 0x6e, 0x53] ++ List.replicate 116 0

/-- The concrete offset resolution of the spec's block example:
measurement `0` at register offset 10, measurement `1` at offset 12. -/
def offs10_12 : Meas → Nat := fun m => if m = 0 then 10 else 12

/-- An offset resolution witnessing `uint16` wrap-around in the 32-bit
block span: measurement `0` at offset 0, measurement `1` at 32767. -/
def offsWide : Meas → Nat := fun m => if m = 0 then 0 else 32767

/-- A field payload padded with spaces to its full register extent. -/
def padField (s : List Nat) (n : Nat) : List Nat :=
  s ++ List.replicate (n - s.length) 32

/-- A common block laid out per the spec: signature, then the four
space-padded fields at byte offsets `2*(reg-1)` for registers
5 / 21 / 45 / 53 (136 bytes in total). -/
def encodeCommonBlock (m mo v s : List Nat) : List Nat :=
  [0x53, 0x75, 0x6e, 0x53] ++ ([0, 0, 0, 0] ++ (padField m 32 ++ (padField mo 32
    ++ (List.replicate 16 0 ++ (padField v 16 ++ padField s 32)))))

/-- Does the byte list avoid ending in a padding byte (so that trimming
cannot shorten it)? -/
def noTrailingPad (l : List Nat) : Prop :=
  ∀ a : Nat, l.getLast? = some a → isPadByte a = false

instance (l : List Nat) : Decidable (noTrailingPad l) := by
  unfold noTrailingPad
  infer_instance

/-! ## Helper lemmas -/

/-- Two `0xFF` bytes at index `idx` make the sentinel decoder return NaN
on the suffix starting there. -/
theorem sentinel_decodes_nan (b : List Nat) (idx : Nat)
    (h0 : b[idx]? = some 255) (h1 : b[idx + 1]? = some 255) :
    RTUUint16ToFloat64WithNaN (b.drop idx) = some .nan := by
  simp only [RTUUint16ToFloat64WithNaN, readUint16BE, List.getElem?_drop,
    Nat.add_zero, h0, h1]
  norm_num

/-- The split loop never emits more results than it has measurements. -/
theorem splitLoop_length_le (opc : Meas → Nat) (ds : Nat)
    (vf : List Nat → Option FloatVal) (mn : Nat) (s : ℚ) (b : List Nat) :
    ∀ (l : List Meas) (res : List SplitResult),
      splitLoop opc ds vf mn s b l = some res → res.length ≤ l.length := by
  intro l
  induction l with
  | nil =>
    intro res h
    simp only [splitLoop, Option.some.injEq] at h
    subst h
    simp
  | cons iec rest ih =>
    intro res h
    simp only [splitLoop] at h
    split at h
    · exact absurd h (by simp)
    · exact Nat.le_succ_of_le (ih res h)
    · split at h
      · exact absurd h (by simp)
      · next res' hrec =>
        cases h
        simpa using ih res' hrec

/-- The measurements of the split loop's results form a sublist (order
preserved, no repetitions added) of the input measurement list. -/
theorem splitLoop_iecs_sublist (opc : Meas → Nat) (ds : Nat)
    (vf : List Nat → Option FloatVal) (mn : Nat) (s : ℚ) (b : List Nat) :
    ∀ (l : List Meas) (res : List SplitResult),
      splitLoop opc ds vf mn s b l = some res →
      List.Sublist (res.map SplitResult.iec) l := by
  intro l
  induction l with
  | nil =>
    intro res h
    simp only [splitLoop, Option.some.injEq] at h
    subst h
    simp
  | cons iec rest ih =>
    intro res h
    simp only [splitLoop] at h
    split at h
    · exact absurd h (by simp)
    · exact List.Sublist.cons iec (ih res h)
    · split at h
      · exact absurd h (by simp)
      · next res' hrec =>
        cases h
        simpa using List.Sublist.cons₂ iec (ih res' hrec)

/-- With the sentinel decoder, a measurement whose two bytes at its
computed block index are `0xFF 0xFF` is never emitted by the loop. -/
theorem splitLoop_sentinel_skip (opc : Meas → Nat) (mn : Nat) (s : ℚ)
    (b : List Nat) (iec : Meas)
    (h0 : b[blockIndex 2 mn (Opcode opc iec)]? = some 255)
    (h1 : b[blockIndex 2 mn (Opcode opc iec) + 1]? = some 255) :
    ∀ (l : List Meas) (res : List SplitResult),
      splitLoop opc 2 RTUUint16ToFloat64WithNaN mn s b l = some res →
      ∀ r ∈ res, r.iec ≠ iec := by
  intro l
  induction l with
  | nil =>
    intro res h
    simp only [splitLoop, Option.some.injEq] at h
    subst h
    simp
  | cons e rest ih =>
    intro res h
    by_cases he : e = iec
    · subst he
      simp only [splitLoop, sentinel_decodes_nan b _ h0 h1] at h
      exact ih res h
    · simp only [splitLoop] at h
      split at h
      · exact absurd h (by simp)
      · exact ih res h
      · split at h
        · exact absurd h (by simp)
        · next res' hrec =>
          cases h
          intro r hr
          rcases List.mem_cons.mp hr with hhd | htl
          · subst hhd
            exact he
          · exact ih res' hrec r htl

/-- Resolved offsets are `uint16` values. -/
theorem Opcode_lt (opc : Meas → Nat) (m : Meas) : Opcode opc m < 65536 :=
  Nat.mod_lt _ (by norm_num)

/-- The `minMax` fold lands exactly on the least and greatest resolved
offsets, from any seed the extrema dominate. -/
theorem minMax_fold_eq (opc : Meas → Nat) (mn mx : Nat) :
    ∀ (l : List Meas) (a b : Nat),
      (∀ x ∈ l.map (Opcode opc), mn ≤ x ∧ x ≤ mx) →
      mn ≤ a → b ≤ mx →
      (mn ∈ l.map (Opcode opc) ∨ mn = a) →
      (mx ∈ l.map (Opcode opc) ∨ mx = b) →
      l.foldl
        (fun mm i =>
          let op := Opcode opc i
          (if op < mm.1 then op else mm.1, if op > mm.2 then op else mm.2))
        (a, b) = (mn, mx) := by
  intro l
  induction l with
  | nil =>
    intro a b _ _ _ hm hx
    simp only [List.map_nil, List.not_mem_nil, false_or] at hm hx
    simp [hm, hx]
  | cons x xs ih =>
    intro a b hall ha hb hm hx
    simp only [List.map_cons, List.mem_cons] at hall hm hx
    have hopx := hall (Opcode opc x) (Or.inl rfl)
    have hrest : ∀ y ∈ xs.map (Opcode opc), mn ≤ y ∧ y ≤ mx :=
      fun y hy => hall y (Or.inr hy)
    simp only [List.foldl_cons]
    refine ih _ _ hrest (by split <;> omega) (by split <;> omega) ?_ ?_
    · rcases hm with (hm | hm) | hm
      · exact Or.inr (by split <;> omega)
      · exact Or.inl hm
      · exact Or.inr (by split <;> omega)
    · rcases hx with (hx | hx) | hx
      · exact Or.inr (by split <;> omega)
      · exact Or.inl hx
      · exact Or.inr (by split <;> omega)

/-- `minMax` computes exactly the least and greatest resolved offsets. -/
theorem minMax_eq (opc : Meas → Nat) (iecs : List Meas) (mn mx : Nat)
    (hmem : mn ∈ iecs.map (Opcode opc))
    (hmn : ∀ x ∈ iecs.map (Opcode opc), mn ≤ x)
    (hmem' : mx ∈ iecs.map (Opcode opc))
    (hmx : ∀ x ∈ iecs.map (Opcode opc), x ≤ mx) :
    minMax opc iecs = (mn, mx) := by
  have hmn65536 : mn < 65536 := by
    rcases List.mem_map.mp hmem with ⟨i, _, hi⟩
    exact hi ▸ Opcode_lt opc i
  exact minMax_fold_eq opc mn mx iecs 65535 0
    (fun x hx => ⟨hmn x hx, hmx x hx⟩) (by omega) (Nat.zero_le mx)
    (Or.inl hmem) (Or.inl hmem')

/-- Trailing space padding is invisible to `trimRight`. -/
theorem trimRight_append_replicate (l : List Nat) (k : Nat) :
    trimRight (l ++ List.replicate k 32) = trimRight l := by
  unfold trimRight
  rw [List.reverse_append, List.reverse_replicate,
    List.dropWhile_append_of_pos ?_]
  intro a ha
  rcases (List.mem_replicate.mp ha) with ⟨_, rfl⟩
  decide

/-- `trimRight` is the identity on a list not ending in a pad byte. -/
theorem trimRight_eq_self (l : List Nat) (h : noTrailingPad l) :
    trimRight l = l := by
  unfold trimRight
  cases hr : l.reverse with
  | nil => simpa using congrArg List.reverse hr
  | cons a t =>
    have ha : l.getLast? = some a := by
      rw [List.getLast?_eq_head?_reverse, hr, List.head?_cons]
    rw [List.dropWhile_cons, if_neg (by simp [h a ha]), ← hr, List.reverse_reverse]

/-- Taking `j ≤ k` bytes of a field padded to length `k` re-pads the
payload to length `j`, provided the payload fits. -/
theorem take_padField (s : List Nat) (k j : Nat) (hj : s.length ≤ j)
    (hk : j ≤ k) :
    (padField s k).take j = s ++ List.replicate (j - s.length) 32 := by
  unfold padField
  rw [List.take_append_eq_append_take, List.take_of_length_le hj,
    List.take_replicate, min_eq_left (by omega)]

/-- The padded common-block field decodes back to its payload. -/
theorem trimRight_take_padField (s : List Nat) (k j : Nat)
    (hj : s.length ≤ j) (hk : j ≤ k) (h : noTrailingPad s) :
    trimRight ((padField s k).take j) = s := by
  rw [take_padField s k j hj hk, trimRight_append_replicate, trimRight_eq_self s h]

/-! ## Claim theorems -/

/-- **C1.** The claim says every buffer of at least `sunspecSerial + 2*16
= 85` bytes carrying the SunS signature decodes without an out-of-range
fault. The code contradicts it: on a signature-carrying buffer of exactly
85 bytes — which passes the decoder's own length guard — the version-field
slice `b[88:103]` and the serial-field slice `b[104:135]` are out of
range, so `DecodeSunSpecCommonBlock` panics. -/
theorem decode_panics_at_minimum_length :
    minLenBuffer.length = sunspecSerial + 2 * 16 ∧
    readUint32BE minLenBuffer 0 = some sunsSignature ∧
    DecodeSunSpecCommonBlock minLenBuffer = .panics := by
  refine ⟨by decide, by decide, by decide⟩

/-- **C9.** `GetSunSpecCommonBlock` requests `ReadLen = 53` registers,
i.e. a 106-byte response; 106 bytes satisfy the decoder's minimum-length
check (`≥ 85`), yet every 106-byte buffer with a valid signature makes the
decoder panic on the serial-field slice `b[104:135]`. -/
theorem decode_panics_on_companion_read_length :
    GetSunSpecCommonBlock.readLen = 53 ∧
    ¬ (2 * 53 < sunspecSerial + 2 * 16) ∧
    (∀ b : List Nat, b.length = 2 * 53 →
      readUint32BE b 0 = some sunsSignature →
      DecodeSunSpecCommonBlock b = .panics) := by
  refine ⟨rfl, by decide, ?_⟩
  intro b hlen hsig
  simp only [DecodeSunSpecCommonBlock, sunspecSerial, sunspecID, hlen,
    sunspecManufacturer, sunspecModel, sunspecVersion, stringDecode, hsig]
  norm_num

/-- Witness for C9 at the concrete 106-byte buffer. -/
theorem decode_panics_on_companion_read_length_witness :
    DecodeSunSpecCommonBlock companionBuffer = .panics :=
  decode_panics_on_companion_read_length.2.2 companionBuffer (by decide) (by decide)

/-- **C10.** For an empty measurement list, `minMax` returns its initial
values `(0xFFFF, 0)` without any non-emptiness check, and `scaleSnip16`
builds an operation whose `uint16` arithmetic wraps: `ReadLen = 0 - 0xFFFF
+ 2 = 3` and `OpCode = (40000 + 0xFFFF - 1) mod 2^16 = 39998`. -/
theorem scaleSnip16_empty_list_wraps :
    ∀ (opc : Meas → Nat) (sp : List Meas → Splitter),
      minMax opc [] = (0xFFFF, 0) ∧
      (scaleSnip16 opc sp []).readLen = 3 ∧
      (scaleSnip16 opc sp []).opCode = (40000 + 0xFFFF - 1) % 2 ^ 16 := by
  intro opc sp
  refine ⟨rfl, ?_, ?_⟩
  · simp only [scaleSnip16, minMax, List.foldl_nil]
  · simp only [scaleSnip16, minMax, List.foldl_nil, sunspecBase]
    rfl

/-- **C7.** On a two-byte input of genuine bytes, the sentinel decoder
returns NaN exactly when the bytes are `0xFF 0xFF`, and otherwise the
big-endian unsigned 16-bit value. -/
theorem RTUUint16ToFloat64WithNaN_sentinel_iff (b0 b1 : Nat)
    (h0 : b0 < 256) (h1 : b1 < 256) :
    (RTUUint16ToFloat64WithNaN [b0, b1] = some .nan ↔ (b0 = 255 ∧ b1 = 255)) ∧
    (¬ (b0 = 255 ∧ b1 = 255) →
      RTUUint16ToFloat64WithNaN [b0, b1] = some (.val (b0 * 256 + b1))) := by
  have hread : readUint16BE [b0, b1] 0 = some (b0 * 256 + b1) := rfl
  constructor
  · constructor
    · intro h
      simp only [RTUUint16ToFloat64WithNaN, hread] at h
      split at h
      · omega
      · exact absurd h (by simp)
    · rintro ⟨rfl, rfl⟩
      decide
  · intro hne
    simp only [RTUUint16ToFloat64WithNaN, hread]
    rw [if_neg (by omega)]
    norm_cast

/-- Witness for C7 at bytes `0x01 0x2c` (value 300). -/
theorem RTUUint16ToFloat64WithNaN_sentinel_iff_witness :
    (RTUUint16ToFloat64WithNaN [1, 44] = some .nan ↔ (1 = 255 ∧ 44 = 255)) ∧
    (¬ ((1 : Nat) = 255 ∧ (44 : Nat) = 255) →
      RTUUint16ToFloat64WithNaN [1, 44] = some (.val (1 * 256 + 44))) :=
  RTUUint16ToFloat64WithNaN_sentinel_iff 1 44 (by decide) (by decide)

/-- **C5.** The decoder's two error returns behave as claimed — a buffer
shorter than 85 bytes yields the buffer-too-short error with the zero
descriptor regardless of content, and a long-enough buffer with a wrong
leading word yields the invalid-signature error with the zero descriptor —
but the code contradicts the claim's "in every other case it returns no
error": at the 120-byte `midLenBuffer` with a valid signature the decoder
neither returns an error nor a descriptor; it panics on the serial-field
slice. -/
theorem decode_error_modes_and_third_failure :
    (∀ b : List Nat, b.length < sunspecSerial + 2 * 16 →
      DecodeSunSpecCommonBlock b = .returns zeroDescriptor (some .bufferTooShort)) ∧
    (∀ (b : List Nat) (u : Nat), ¬ b.length < sunspecSerial + 2 * 16 →
      readUint32BE b 0 = some u → u ≠ sunsSignature →
      DecodeSunSpecCommonBlock b = .returns zeroDescriptor (some .invalidSignature)) ∧
    DecodeSunSpecCommonBlock midLenBuffer = .panics := by
  refine ⟨?_, ?_, by decide⟩
  · intro b hshort
    simp only [DecodeSunSpecCommonBlock, if_pos hshort]
  · intro b u hlong hu hne
    simp only [DecodeSunSpecCommonBlock, if_neg hlong, sunspecID, Nat.sub_self, hu]
    rw [if_pos hne]

/-- Witness for C5: the short-buffer and bad-signature branches at
concrete inputs. -/
theorem decode_error_modes_and_third_failure_witness :
    DecodeSunSpecCommonBlock [1, 2, 3] = .returns zeroDescriptor (some .bufferTooShort) ∧
    DecodeSunSpecCommonBlock (List.replicate 136 7) =
      .returns zeroDescriptor (some .invalidSignature) :=
  ⟨decode_error_modes_and_third_failure.1 [1, 2, 3] (by decide),
   decode_error_modes_and_third_failure.2.1 (List.replicate 136 7)
     (((7 * 256 + 7) * 256 + 7) * 256 + 7) (by decide) (by decide) (by decide)⟩

/-- **C6.** For every splitter built by `mkSplitUint16` and every block:
the result never has more entries than there are measurements (possibly
zero), a measurement whose two raw bytes at its computed index are
`0xFF 0xFF` decodes to NaN, and no SplitResult is ever emitted for it. -/
theorem mkSplitUint16_skips_sentinel (opc : Meas → Nat) (iecs : List Meas)
    (b : List Nat) (res : List SplitResult)
    (h : mkSplitUint16 opc iecs b = some res) :
    res.length ≤ iecs.length ∧
    ∀ iec ∈ iecs,
      b[blockIndex 2 (minMax opc iecs).1 (Opcode opc iec)]? = some 255 →
      b[blockIndex 2 (minMax opc iecs).1 (Opcode opc iec) + 1]? = some 255 →
      RTUUint16ToFloat64WithNaN
          (b.drop (blockIndex 2 (minMax opc iecs).1 (Opcode opc iec))) = some .nan ∧
      ∀ r ∈ res, r.iec ≠ iec := by
  simp only [mkSplitUint16, mkBlockSplitter] at h
  split at h
  · exact absurd h (by simp)
  · next e he =>
    refine ⟨splitLoop_length_le _ _ _ _ _ _ _ _ h, ?_⟩
    intro iec _ h0 h1
    exact ⟨sentinel_decodes_nan b _ h0 h1,
      splitLoop_sentinel_skip _ _ _ _ _ h0 h1 _ _ h⟩

/-- Witness for C6: both measurements read the sentinel, the block decodes
to NaN at measurement `0`'s index, and the output is empty. -/
theorem mkSplitUint16_skips_sentinel_witness :
    ([] : List SplitResult).length ≤ ([0, 1] : List Meas).length ∧
    RTUUint16ToFloat64WithNaN
      (List.drop (blockIndex 2 (minMax offs10_12 [0, 1]).1 (Opcode offs10_12 0))
        [255, 255, 9, 9, 255, 255, 255, 255]) = some .nan := by
  have h := mkSplitUint16_skips_sentinel offs10_12 [0, 1]
    [255, 255, 9, 9, 255, 255, 255, 255] [] (by decide)
  exact ⟨h.1, (h.2 0 (by decide) (by decide) (by decide)).1⟩

/-- **C8.** A splitter built by `mkBlockSplitter` is deterministic — the
same byte block (under the same offset resolution) always produces the
same output — and the emitted results follow the insertion order of the
measurement argument list: their measurements form a sublist of it. -/
theorem mkBlockSplitter_deterministic_ordered (opc : Meas → Nat) (ds : Nat)
    (vf : List Nat → Option FloatVal) (iecs : List Meas) (b b' : List Nat)
    (hb : b' = b) :
    mkBlockSplitter opc ds vf iecs b' = mkBlockSplitter opc ds vf iecs b ∧
    ∀ res, mkBlockSplitter opc ds vf iecs b = some res →
      List.Sublist (res.map SplitResult.iec) iecs := by
  subst hb
  refine ⟨rfl, ?_⟩
  intro res h
  simp only [mkBlockSplitter] at h
  split at h
  · exact absurd h (by simp)
  · exact splitLoop_iecs_sublist _ _ _ _ _ _ _ _ h

/-- Witness for C8 at a concrete one-measurement block. -/
theorem mkBlockSplitter_deterministic_ordered_witness :
    mkBlockSplitter offs10_12 2 RTUUint16ToFloat64WithNaN [0] [255, 255, 255, 255] =
      mkBlockSplitter offs10_12 2 RTUUint16ToFloat64WithNaN [0] [255, 255, 255, 255] ∧
    List.Sublist (([] : List SplitResult).map SplitResult.iec) [0] := by
  have h := mkBlockSplitter_deterministic_ordered offs10_12 2
    RTUUint16ToFloat64WithNaN [0] [255, 255, 255, 255]
    [255, 255, 255, 255] rfl
  exact ⟨h.1, h.2 [] (by decide)⟩

/-- **C3.** The spec's block example: measurements at offsets 10 and 12,
an 8-byte block ending in the exponent `-1` (bytes `0xFF 0xFF`), neither
raw value the sentinel. The output is exactly two results, in order:
`(40000+10-1, raw(10)*0.1)` then `(40000+12-1, raw(12)*0.1)`, the raw
values read at byte indices `2*(10-10) = 0` and `2*(12-10) = 4`. -/
theorem blockSplitter_example (a0 a1 a2 a3 a4 a5 : Nat)
    (hs1 : a0 * 256 + a1 ≠ 0xffff) (hs2 : a4 * 256 + a5 ≠ 0xffff) :
    mkSplitUint16 offs10_12 [0, 1] [a0, a1, a2, a3, a4, a5, 0xff, 0xff] =
      some [⟨40000 + 10 - 1, 0, (a0 * 256 + a1 : ℚ) * (1 / 10)⟩,
            ⟨40000 + 12 - 1, 1, (a4 * 256 + a5 : ℚ) * (1 / 10)⟩] := by
  simp only [mkSplitUint16, mkBlockSplitter, minMax, offs10_12, Opcode,
    splitLoop, blockIndex, readUint16BE, RTUUint16ToFloat64WithNaN,
    toInt16, pow10, sunspecBase, List.foldl_cons, List.foldl_nil]
  norm_num [hs1, hs2, List.getElem?_cons_zero, List.getElem?_cons_succ]
  constructor
  · ring
  · ring

/-- Witness for C3 at raw values 300 and 600 (scaled to 30 and 60). -/
theorem blockSplitter_example_witness :
    mkSplitUint16 offs10_12 [0, 1] [1, 44, 9, 9, 2, 88, 0xff, 0xff] =
      some [⟨40009, 0, 30⟩, ⟨40011, 1, 60⟩] := by
  have h := blockSplitter_example 1 44 9 9 2 88 (by decide) (by decide)
  norm_num at h
  exact h

/-- **C4 counterexample.** For offsets `{0, 32767}` the claim's 32-bit
register count `((max-min)+1)*2 + 1 = 65537` does not fit in `uint16`:
the built operation's `ReadLen` is the wrapped value `1`. (The 16-bit
count 32769 still matches the claim here.) -/
theorem scaleSnip32_span_wraps :
    Opcode offsWide 0 = 0 ∧ Opcode offsWide 1 = 32767 ∧
    (scaleSnip16 offsWide (mkSplitUint16 offsWide) [0, 1]).readLen = (32767 - 0) + 2 ∧
    (scaleSnip32 offsWide (mkSplitUint16 offsWide) [0, 1]).readLen = 1 ∧
    (1 : Nat) ≠ ((32767 - 0) + 1) * 2 + 1 := by
  refine ⟨rfl, rfl, ?_, ?_, by decide⟩
  · simp only [scaleSnip16, minMax, Opcode, offsWide, List.foldl_cons, List.foldl_nil]
    rfl
  · simp only [scaleSnip32, scaleSnip16, minMax, Opcode, offsWide,
      List.foldl_cons, List.foldl_nil]
    rfl

/-- **C4 amended.** For a non-empty measurement list whose resolved
offsets have minimum `mn` and maximum `mx`, the block operation's span is
as claimed, as a `uint16` value (i.e. modulo `2^16`): `scaleSnip16` reads
`(mx-mn)+2` registers starting at `40000+mn-1`, and `scaleSnip32` reads
`((mx-mn)+1)*2 + 1` registers. -/
theorem scaleSnip_span (opc : Meas → Nat) (sp : List Meas → Splitter)
    (iecs : List Meas) (mn mx : Nat)
    (hmem : mn ∈ iecs.map (Opcode opc))
    (hmn : ∀ x ∈ iecs.map (Opcode opc), mn ≤ x)
    (hmem' : mx ∈ iecs.map (Opcode opc))
    (hmx : ∀ x ∈ iecs.map (Opcode opc), x ≤ mx) :
    (scaleSnip16 opc sp iecs).readLen = (mx - mn + 2) % 2 ^ 16 ∧
    (scaleSnip16 opc sp iecs).opCode = (40000 + mn - 1) % 2 ^ 16 ∧
    (scaleSnip32 opc sp iecs).readLen = ((mx - mn + 1) * 2 + 1) % 2 ^ 16 := by
  have hmm := minMax_eq opc iecs mn mx hmem hmn hmem' hmx
  have hmn65 : mn < 65536 := by
    rcases List.mem_map.mp hmem with ⟨i, _, hi⟩
    exact hi ▸ Opcode_lt opc i
  have hmx65 : mx < 65536 := by
    rcases List.mem_map.mp hmem' with ⟨i, _, hi⟩
    exact hi ▸ Opcode_lt opc i
  have hle : mn ≤ mx := hmx mn hmem
  have h216 : (2 : Nat) ^ 16 = 65536 := by norm_num
  simp only [scaleSnip32, scaleSnip16, hmm, sunspecBase, h216]
  refine ⟨by omega, trivial, by omega⟩

/-- Witness for C4 (amended) at offsets `{10, 12}`. -/
theorem scaleSnip_span_witness :
    (scaleSnip16 offs10_12 (mkSplitUint16 offs10_12) [0, 1]).readLen =
      (12 - 10 + 2) % 2 ^ 16 ∧
    (scaleSnip16 offs10_12 (mkSplitUint16 offs10_12) [0, 1]).opCode =
      (40000 + 10 - 1) % 2 ^ 16 ∧
    (scaleSnip32 offs10_12 (mkSplitUint16 offs10_12) [0, 1]).readLen =
      ((12 - 10 + 1) * 2 + 1) % 2 ^ 16 :=
  scaleSnip_span offs10_12 (mkSplitUint16 offs10_12) [0, 1] 10 12
    (by decide) (by decide) (by decide) (by decide)

/-- **C2 counterexample.** `stringDecode` slices `b[start:end-1]`, never
reading the final byte of a field. A manufacturer string occupying its
full 32-byte span per the claim's layout comes back truncated to 31
bytes, so the full `2*length`-byte span is not recovered. -/
theorem decode_drops_final_field_byte :
    DecodeSunSpecCommonBlock (encodeCommonBlock (List.replicate 32 65) [] [] []) =
      .returns ⟨List.replicate 31 65, [], [], []⟩ none ∧
    (List.replicate 31 65 : List Nat) ≠ List.replicate 32 65 :=
  ⟨by decide, by decide⟩

/-- **C2 amended.** Round-trip through the claimed layout, restricted to
payloads that fit in the first `2*length - 1` bytes of their field (the
field's final byte is never read by `stringDecode`) and do not end in a
pad byte: decoding returns exactly the four payloads. -/
theorem decode_encodeCommonBlock (m mo v s : List Nat)
    (hm : m.length ≤ 31) (hmo : mo.length ≤ 31) (hv : v.length ≤ 15)
    (hs : s.length ≤ 31) (pm : noTrailingPad m) (pmo : noTrailingPad mo)
    (pv : noTrailingPad v) (ps : noTrailingPad s) :
    DecodeSunSpecCommonBlock (encodeCommonBlock m mo v s) =
      .returns ⟨m, mo, v, s⟩ none := by
  have hlm : (padField m 32).length = 32 := by simp [padField]; omega
  have hlmo : (padField mo 32).length = 32 := by simp [padField]; omega
  have hlv : (padField v 16).length = 16 := by simp [padField]; omega
  have hls : (padField s 32).length = 32 := by simp [padField]; omega
  have hlen : (encodeCommonBlock m mo v s).length = 136 := by
    simp [encodeCommonBlock, padField]
    omega
  have hd8 : (encodeCommonBlock m mo v s).drop 8 =
      padField m 32 ++ (padField mo 32 ++ (List.replicate 16 0
        ++ (padField v 16 ++ padField s 32))) := rfl
  have hd40 : (encodeCommonBlock m mo v s).drop 40 =
      padField mo 32 ++ (List.replicate 16 0 ++ (padField v 16 ++ padField s 32)) := by
    rw [show (40 : Nat) = 8 + 32 from rfl, ← List.drop_drop, hd8, List.drop_left' hlm]
  have hd72 : (encodeCommonBlock m mo v s).drop 72 =
      List.replicate 16 0 ++ (padField v 16 ++ padField s 32) := by
    rw [show (72 : Nat) = 40 + 32 from rfl, ← List.drop_drop, hd40, List.drop_left' hlmo]
  have hd88 : (encodeCommonBlock m mo v s).drop 88 =
      padField v 16 ++ padField s 32 := by
    rw [show (88 : Nat) = 72 + 16 from rfl, ← List.drop_drop, hd72,
      List.drop_left' (List.length_replicate 16 0)]
  have hd104 : (encodeCommonBlock m mo v s).drop 104 = padField s 32 := by
    rw [show (104 : Nat) = 88 + 16 from rfl, ← List.drop_drop, hd88, List.drop_left' hlv]
  have hman : stringDecode (encodeCommonBlock m mo v s) sunspecManufacturer 16 = some m := by
    simp only [stringDecode, sunspecManufacturer, hlen]
    norm_num
    rw [hd8, List.take_append_eq_append_take, hlm]
    norm_num
    rw [trimRight_take_padField m 32 31 hm (by omega) pm]
  have hmod : stringDecode (encodeCommonBlock m mo v s) sunspecModel 16 = some mo := by
    simp only [stringDecode, sunspecModel, hlen]
    norm_num
    rw [hd40, List.take_append_eq_append_take, hlmo]
    norm_num
    rw [trimRight_take_padField mo 32 31 hmo (by omega) pmo]
  have hver : stringDecode (encodeCommonBlock m mo v s) sunspecVersion 8 = some v := by
    simp only [stringDecode, sunspecVersion, hlen]
    norm_num
    rw [hd88, List.take_append_eq_append_take, hlv]
    norm_num
    rw [trimRight_take_padField v 16 15 hv (by omega) pv]
  have hser : stringDecode (encodeCommonBlock m mo v s) sunspecSerial 16 = some s := by
    simp only [stringDecode, sunspecSerial, hlen]
    norm_num
    rw [hd104]
    rw [trimRight_take_padField s 32 31 hs (by omega) ps]
  have h0 : (encodeCommonBlock m mo v s)[0]? = some 0x53 := by
    rw [encodeCommonBlock, List.getElem?_append_left (by norm_num)]
    rfl
  have h1 : (encodeCommonBlock m mo v s)[1]? = some 0x75 := by
    rw [encodeCommonBlock, List.getElem?_append_left (by norm_num)]
    rfl
  have h2 : (encodeCommonBlock m mo v s)[2]? = some 0x6e := by
    rw [encodeCommonBlock, List.getElem?_append_left (by norm_num)]
    rfl
  have h3 : (encodeCommonBlock m mo v s)[3]? = some 0x53 := by
    rw [encodeCommonBlock, List.getElem?_append_left (by norm_num)]
    rfl
  have hsig : readUint32BE (encodeCommonBlock m mo v s) 0 = some sunsSignature := by
    simp only [readUint32BE, h0, h1, h2, h3]
    rfl
  simp only [sunspecSerial] at hser
  simp only [DecodeSunSpecCommonBlock, hlen, sunspecSerial, sunspecID, hman, hmod, hver, hser]
  norm_num [hsig]
/-- Witness for C2 (amended) at concrete short payloads. -/
theorem decode_encodeCommonBlock_witness :
    DecodeSunSpecCommonBlock
        (encodeCommonBlock [83, 69] [83, 69, 49] [49, 46, 48] [65, 66, 67]) =
      .returns ⟨[83, 69], [83, 69, 49], [49, 46, 48], [65, 66, 67]⟩ none :=
  decode_encodeCommonBlock [83, 69] [83, 69, 49] [49, 46, 48] [65, 66, 67]
    (by decide) (by decide) (by decide) (by decide)
    (by decide) (by decide) (by decide) (by decide)

end meters
